import Mathlib

/-!
# Verification of the RCON engine and ban-evasion enforcement loop

Shallow embedding, in Lean 4, of the hard core of the `zzzXBDJBansBackend`
repository: the RCON wire codec and read loops of `src/utils/rcon.rs`
(`check_rcon`, `send_command`), the status-output parser and the per-player
enforcement evaluation of `src/bg_task.rs` (`check_all_servers`).

Modelling conventions:
* byte buffers are `List Nat` (each element a byte value `< 256`);
* Rust `i32` values are `Int` together with explicit two's-complement
  little-endian encoding / decoding (`i32ToLE`, `u32ToI32`);
* the `as usize` cast of a possibly negative `i32` is modelled by
  `usizeOfI32` (64-bit two's complement reinterpretation);
* Rust panics (`.unwrap()` on a failed cursor read, and overflow-checked
  `usize` subtraction `size - 8` when `size < 8`) are modelled as `none`
  (resp. a `panicked` outcome): the surrounding task dies and returns
  nothing;
* the byte-scan loops are written with an explicit fuel argument to make
  them structurally recursive and hence evaluable by the kernel; one loop
  iteration always consumes at least 12 bytes of the buffer, so fuel
  `buf.length + 1` can never be exhausted, and a fuel-irrelevance lemma
  (`respLoopF_irrel`, `authScanF_irrel`) makes the choice immaterial;
* strings are Lean `String`s, manipulated through explicit `List Char`
  models of the Rust primitives used by the source (`trim`, `split`,
  `split_whitespace`), which agree with the Rust ones on ASCII input;
* the external database and the in-game command transport are modelled as
  response oracles; results the source discards with `let _ = ...` are
  recorded in the effect log together with their success flag, which the
  control flow never consults, exactly as in the source.
-/

/-- Value of four little-endian bytes as an unsigned 32-bit integer. -/
def leToU32 (b0 b1 b2 b3 : Nat) : Nat := b0 + 256 * b1 + 65536 * b2 + 16777216 * b3

/-- The four little-endian bytes of the two's-complement 32-bit encoding of
an integer, as written by `WriteBytesExt::write_i32::<LittleEndian>`. -/
def i32ToLE (x : Int) : List Nat :=
  let u : Nat := (x % 4294967296).toNat
  [u % 256, u / 256 % 256, u / 65536 % 256, u / 16777216 % 256]

/-- Reinterpret an unsigned 32-bit value as a signed `i32`, as done by
`ReadBytesExt::read_i32::<LittleEndian>`. -/
def u32ToI32 (u : Nat) : Int := if u < 2147483648 then (u : Int) else (u : Int) - 4294967296

/-- The `size as usize` cast of the source: two's-complement
reinterpretation of an `i32` as a 64-bit unsigned integer. -/
def usizeOfI32 (x : Int) : Nat := (x % 18446744073709551616).toNat

/-- `read_i32::<LittleEndian>` from a cursor: `some` value when at least
four bytes remain, otherwise the read fails (the source `.unwrap()`s the
failure, i.e. panics). -/
def readI32 : List Nat → Option Int
  | b0 :: b1 :: b2 :: b3 :: _ => some (u32ToI32 (leToU32 b0 b1 b2 b3))
  | _ => none

/-- One decoded RCON packet: request id, packet type, body bytes. -/
structure Packet where
  reqId : Int
  ty : Int
  body : List Nat
deriving Repr, DecidableEq

/-- Validity of a packet as a value of the Rust types: `request_id` and
`type` are `i32`s, and the packet size `body.len() + 10` fits an `i32`
(the source computes it with `as i32` casts). -/
def validPacket (f : Packet) : Prop :=
  -2147483648 ≤ f.reqId ∧ f.reqId < 2147483648 ∧
  -2147483648 ≤ f.ty ∧ f.ty < 2147483648 ∧
  (f.body.length : Int) + 10 < 2147483648

instance : DecidablePred validPacket := fun f => by unfold validPacket; infer_instance

/-- The wire bytes built by `check_rcon` / `send_command` for one packet:
`[size][id][type][body][0x00][0x00]`, all integers four-byte little-endian,
with `size = 4 + 4 + body.len() + 1 + 1` (the size field does not count
itself).  The source performs no validation of the body whatsoever. -/
def encodePacket (id ty : Int) (body : List Nat) : List Nat :=
  i32ToLE (4 + 4 + (body.length : Int) + 1 + 1) ++ i32ToLE id ++ i32ToLE ty ++ body ++ [0, 0]

/-- Concatenation of the wire encodings of a list of packets, as they may
arrive in a single `stream.read`. -/
def encodeFrames : List Packet → List Nat
  | [] => []
  | f :: fs => encodePacket f.reqId f.ty f.body ++ encodeFrames fs

/-- The per-read packet-scan loop of `send_command`'s response section
(`src/utils/rcon.rs` lines 200-232), on one read buffer, with fuel.
Faithfully, per iteration:
* fewer than 4 bytes left → `break` (done with this read);
* read `size` (i32), reinterpret `as usize`;
* remaining bytes fewer than `size` → `break` (incomplete packet; the
  source comments that the remainder is *not* buffered for the next read);
* read `id` and `type` — each `read_i32(...).unwrap()` panics (`none`)
  when fewer than four bytes remain;
* `body_len = if size >= 10 { size - 10 } else { 0 }`; `end > n` → `break`;
* push the body chunk onto the accumulated response;
* `advance = size - 8`: overflow-checked `usize` subtraction, panics when
  `size < 8`; otherwise the cursor has moved `4 + size` bytes in total.
Returns the pushed `(id, type, chunk)` packets of this read in order, or
`none` when the loop panics. -/
def respLoopF : Nat → List Nat → Option (List Packet)
  | 0, _ => some []
  | f + 1, buf =>
    match readI32 buf with
    | none => some []
    | some size =>
      let sizeU := usizeOfI32 size
      let rest := buf.drop 4
      if rest.length < sizeU then some []
      else
        match readI32 rest, readI32 (buf.drop 8) with
        | some rid, some ty =>
          let bodyLen := if 10 ≤ sizeU then sizeU - 10 else 0
          if rest.length + 4 < 12 + bodyLen then some []
          else if sizeU < 8 then none
          else
            (respLoopF f (buf.drop (4 + sizeU))).map
              (fun ps => ⟨rid, ty, (buf.drop 12).take bodyLen⟩ :: ps)
        | _, _ => none

/-- The packet-scan loop on one full read buffer (fuel `buf.length + 1` is
always sufficient, see `respLoopF_irrel`). -/
def respLoop (buf : List Nat) : Option (List Packet) := respLoopF (buf.length + 1) buf

/-- The outer read loop of `send_command`'s response section: each
`stream.read` delivers one buffer, which is parsed from position zero by
`respLoop` (leftover bytes of a previous read are *not* carried over);
response chunks accumulate across reads.  `none` when some read panics. -/
def respReads : List (List Nat) → Option (List Packet)
  | [] => some []
  | r :: rs =>
    match respLoop r with
    | none => none
    | some ps => (respReads rs).map (fun qs => ps ++ qs)

/-- The accumulated `response_data` of one read buffer, as bytes (the
source pushes `String::from_utf8_lossy(chunk)` per chunk; the UTF-8 lossy
text decoding is abstracted, the byte content and order are exact). -/
def responseOf (buf : List Nat) : Option (List Nat) :=
  (respLoop buf).map (fun ps => (ps.map Packet.body).foldr (· ++ ·) [])

/-- Outcome of the authentication read loop on one read buffer. -/
inductive AuthOutcome where
  | success
  | authFailed
  | panicked
  | pending
deriving Repr, DecidableEq

/-- The per-read auth-scan loop of `check_rcon` (lines 50-88, `req_id =
999`) and of `send_command` (lines 130-159, `req_id = 1`), with fuel: read
`size`, `id`, `type`; advance `size - 8` (overflow-checked subtraction,
panics when `size < 8`); a type-2 packet with `id = -1` returns the
authentication failure regardless of its body, one with `id = req_id`
returns success; every other packet is skipped.  `pending` when the buffer
runs out without a decision (the outer loop would issue another read). -/
def authScanF (reqId : Int) : Nat → List Nat → AuthOutcome
  | 0, _ => .pending
  | f + 1, buf =>
    match readI32 buf with
    | none => .pending
    | some size =>
      let sizeU := usizeOfI32 size
      let rest := buf.drop 4
      if rest.length < sizeU then .pending
      else
        match readI32 rest, readI32 (buf.drop 8) with
        | some rid, some ty =>
          if sizeU < 8 then .panicked
          else if ty = 2 then
            if rid = -1 then .authFailed
            else if rid = reqId then .success
            else authScanF reqId f (buf.drop (4 + sizeU))
          else authScanF reqId f (buf.drop (4 + sizeU))
        | _, _ => .panicked

/-- The auth-scan loop on one full read buffer (fuel `buf.length + 1` is
always sufficient, see `authScanF_irrel`). -/
def authScan (reqId : Int) (buf : List Nat) : AuthOutcome :=
  authScanF reqId (buf.length + 1) buf

/-- Reference decision following the specification's words on
authentication (§4.2, §8): scanning the arriving frames in order, an
auth-response-typed (type 2) frame with `request_id = -1` fails the
handshake regardless of its body, one whose `request_id` equals the sent
id succeeds, every other frame is discarded. -/
def specAuthDecision (reqId : Int) : List Packet → AuthOutcome
  | [] => .pending
  | f :: fs =>
    if f.ty = 2 ∧ f.reqId = -1 then .authFailed
    else if f.ty = 2 ∧ f.reqId = reqId then .success
    else specAuthDecision reqId fs

/-- Reference response following the specification's words on the command
executor (§4.3): the concatenation, in arrival order, of the bodies of
exactly those frames of type `ResponseValue` (type 0) whose `request_id`
equals the id sent with the ExecCommand frame. -/
def specResponse (cmdId : Int) (frames : List Packet) : List Nat :=
  ((frames.filter (fun f => f.ty = 0 ∧ f.reqId = cmdId)).map Packet.body).foldr (· ++ ·) []

/-- Rust `str::trim` on a character list: whitespace stripped from both
ends (ASCII whitespace; the source lines are ASCII). -/
def rustTrim (s : List Char) : List Char :=
  ((s.dropWhile Char.isWhitespace).reverse.dropWhile Char.isWhitespace).reverse

/-- Rust `str::split(p)`: pieces between separator characters, empties
kept, `n` separators giving `n + 1` pieces. -/
def splitP (p : Char → Bool) : List Char → List (List Char)
  | [] => [[]]
  | c :: cs =>
    if p c then [] :: splitP p cs
    else
      match splitP p cs with
      | h :: t => (c :: h) :: t
      | [] => [[c]]

/-- Rust `str::split_whitespace`: maximal non-whitespace runs. -/
def splitWs (s : List Char) : List (List Char) :=
  (splitP Char.isWhitespace s).filter (· ≠ [])

/-- The `userid` search of `check_all_servers` (bg_task.rs lines 65-71):
scan the whitespace tokens before the first quote; at the first token equal
to `"#"` that has a successor token, return that successor. -/
def findAfterHash : List (List Char) → List Char
  | a :: b :: rest => if a = ['#'] then b else findAfterHash (b :: rest)
  | _ => []

/-- One player record as parsed by the enforcement loop. -/
structure Player where
  userid : String
  name : String
  steam_id : String
  ip : String
deriving Repr, DecidableEq

/-- The slot-id computation of bg_task.rs lines 60-75: whitespace split of
the (trimmed) text before the first quote; the token after the first `"#"`
token, falling back to the last token when the scan finds none. -/
def slotToken (p0 : List Char) : List Char :=
  let preParts := splitWs (rustTrim p0)
  let userid0 := findAfterHash preParts
  if userid0 = [] then preParts.getLast?.getD [] else userid0

/-- The per-line status parse of `check_all_servers` (bg_task.rs lines
51-90), faithfully: trim; require a leading `#`; split on `"` and require
at least three parts (at least two quotes); `userid` is the `slotToken` of
the text before the first quote, and the line is skipped when it is
literally `"#"`; the display name is the text between the first two
quotes; the text after the second quote, whitespace-split, needs at least
two tokens, the first being the steam id and the last an `ip:port` whose
part before the first `:` is the ip; lines with empty ip or steam id `BOT`
are skipped. -/
def parseStatusLine (line : String) : Option Player :=
  let l := rustTrim line.toList
  if l.head? ≠ some '#' then none
  else
    match splitP (· = '"') l with
    | p0 :: p1 :: p2 :: _ =>
      let userid := slotToken p0
      if userid = ['#'] then none
      else
        let fields := splitWs (rustTrim p2)
        if fields.length < 2 then none
        else
          let steamId := fields.headD []
          let ipPort := fields.getLast?.getD []
          let ipOnly := (splitP (· = ':') ipPort).headD []
          if ipOnly = [] ∨ steamId = ['B', 'O', 'T'] then none
          else some ⟨String.mk userid, String.mk p1, String.mk steamId, String.mk ipOnly⟩
    | _ => none

/-- `output.lines()` followed by the per-line parse with skips: the list of
player records of one status output (the per-line `trim` subsumes the
carriage-return stripping of Rust `lines()`). -/
def parseStatus (output : String) : List Player :=
  (splitP (· = '\n') output.toList).filterMap (fun l => parseStatusLine (String.mk l))

/-- The slot-id extraction rule that the specification (§4.4) claims: the
last whitespace token of the text before the first quote.  Written from the
spec's words, for comparison against the source's rule. -/
def specSlotIdOfLine (line : String) : Option String :=
  let l := rustTrim line.toList
  if l.head? ≠ some '#' then none
  else
    match splitP (· = '"') l with
    | p0 :: _ :: _ :: _ => some (String.mk ((splitWs (rustTrim p0)).getLast?.getD []))
    | _ => none

/-- The reference status line of the specification (§8). -/
def statusLineC6 : String := "# 3 1 \"Player One\" STEAM_0:1:111 01:23 45 0 active 1000 192.0.2.5:27005"

/-- One row of the `bans` table as used by the enforcement loop
(`src/models/ban.rs`; the loop's snapshot query selects rows with
`status = 'active' AND ban_type = 'ip'`).  Timestamps are abstracted to
integers; the `id`, `steam_id_3`, `steam_id_64` and `created_at` columns
are never read by the loop and are omitted. -/
structure Ban where
  name : String
  steam_id : String
  ip : String
  ban_type : String
  reason : Option String
  duration : String
  status : String
  admin_name : Option String
  expires_at : Option Int
  server_id : Option Int
deriving Repr, DecidableEq

/-- One row of the `servers` table (`src/models/server.rs`). -/
structure ServerT where
  id : Int
  ip : String
  port : Nat
  rcon_password : Option String
deriving Repr, DecidableEq

/-- The column values of the `INSERT INTO bans ...` statement issued on a
new evasion catch (bg_task.rs lines 112-125); `created_at = NOW()` is
abstracted away and `status` is the literal `'active'`. -/
structure InsertBan where
  name : String
  steam_id : String
  ip : String
  ban_type : String
  reason : String
  duration : String
  admin_name : String
  expires_at : Option Int
  status : String
  server_id : Int
deriving Repr, DecidableEq

/-- An observable side effect of one enforcement tick: a ban-row insert or
an RCON command sent to a server address.  The `ok` flag records the
success of the operation as decided by the environment; the source
discards it (`let _ = ...`), so the control flow never consults it. -/
inductive Effect where
  | insert (rec0 : InsertBan) (ok : Bool)
  | command (addr : String) (cmd : String) (ok : Bool)
deriving Repr, DecidableEq

/-- Environment of one tick: responses of the external world.
`status` is the outcome of `send_command(addr, pwd, "status")` per server
id; `lookupActive` is the outcome of the per-player
`SELECT id FROM bans WHERE steam_id = ? AND status = 'active'` query
(`true` = a row exists); `insertOk` / `cmdOk` decide the success of the
fire-and-forget insert and kick/ban commands. -/
structure TickEnv where
  status : Int → Except String String
  lookupActive : String → Except String Bool
  insertOk : InsertBan → Bool
  cmdOk : String → Bool

/-- The kick command string of bg_task.rs line 104. -/
def kickCmd (userid : String) : String := "kickid " ++ userid ++ " \"Banned IP Detected\""

/-- The fixed reason string of bg_task.rs line 109. -/
def banReason : String := "同IP关联封禁 (Detected online with Banned IP)"

/-- The combined ban-and-kick command string of bg_task.rs line 131. -/
def smBanCmd (userid duration : String) : String :=
  "sm_ban #" ++ userid ++ " " ++ duration ++ " \"" ++ banReason ++ "\""

/-- The admin attribution of the automatic insert (bg_task.rs line 121). -/
def sysAdminName : String := "System (BG Monitor)"

/-- The Evaluate step for one parsed player: the `for ban in &ip_bans` loop
of bg_task.rs lines 93-134.  For each snapshot ban whose `ip` equals the
player's ip: query the store for an active ban on the player's steam id —
a query error propagates out via `?` (second component), with the effects
already performed kept in the log; if a ban exists, send a kick; otherwise
insert the new account ban (inheriting `duration` and `expires_at`,
attributed to the system admin name with the fixed reason) and send the
combined `sm_ban` command.  Insert and command results are discarded. -/
def evalPlayerBans (env : TickEnv) (addr : String) (serverId : Int) (p : Player) :
    List Ban → List Effect × Option String
  | [] => ([], none)
  | ban :: rest =>
    if ban.ip = p.ip then
      match env.lookupActive p.steam_id with
      | .error e => ([], some e)
      | .ok true =>
        let r := evalPlayerBans env addr serverId p rest
        (.command addr (kickCmd p.userid) (env.cmdOk (kickCmd p.userid)) :: r.1, r.2)
      | .ok false =>
        let newRec : InsertBan := ⟨p.name, p.steam_id, p.ip, "account", banReason,
          ban.duration, sysAdminName, ban.expires_at, "active", serverId⟩
        let c := smBanCmd p.userid ban.duration
        let r := evalPlayerBans env addr serverId p rest
        (.insert newRec (env.insertOk newRec) :: .command addr c (env.cmdOk c) :: r.1, r.2)
    else evalPlayerBans env addr serverId p rest

/-- Sequential evaluation of the parsed players of one server's status
output; a store-lookup error aborts the remaining players (`?`). -/
def runPlayers (env : TickEnv) (addr : String) (serverId : Int) (ipBans : List Ban) :
    List Player → List Effect × Option String
  | [] => ([], none)
  | p :: rest =>
    let r := evalPlayerBans env addr serverId p ipBans
    match r.2 with
    | some e => (r.1, some e)
    | none =>
      let r2 := runPlayers env addr serverId ipBans rest
      (r.1 ++ r2.1, r2.2)

/-- One server of the tick (bg_task.rs lines 41-138): a failing `status`
command skips the server (`Err(_) => continue`); otherwise its output is
parsed and each player evaluated. -/
def runServer (env : TickEnv) (ipBans : List Ban) (s : ServerT) :
    List Effect × Option String :=
  match env.status s.id with
  | .error _ => ([], none)
  | .ok output => runPlayers env (s.ip ++ ":" ++ toString s.port) s.id ipBans
      (parseStatus output)

/-- The server iteration of one tick: sequential; a store-lookup error
escaping one server's evaluation aborts the remaining servers (`?` in
`check_all_servers`). -/
def runTick (env : TickEnv) (ipBans : List Ban) : List ServerT → List Effect × Option String
  | [] => ([], none)
  | s :: rest =>
    let r := runServer env ipBans s
    match r.2 with
    | some e => (r.1, some e)
    | none =>
      let r2 := runTick env ipBans rest
      (r.1 ++ r2.1, r2.2)

/-- `check_all_servers` given the loaded snapshot: zero active IP bans
short-circuit the tick (bg_task.rs lines 31-33). -/
def checkAllServers (env : TickEnv) (ipBans : List Ban) (servers : List ServerT) :
    List Effect × Option String :=
  if ipBans.isEmpty then ([], none) else runTick env ipBans servers

/-- Erase the success flags of an effect log (the flags are the only part
of an effect the environment's `insertOk` / `cmdOk` can influence). -/
def stripOk : Effect → Effect
  | .insert r _ => .insert r true
  | .command a c _ => .command a c true

def insertCount (es : List Effect) : Nat :=
  es.countP fun e => match e with | .insert _ _ => true | _ => false

def commandCount (es : List Effect) : Nat :=
  es.countP fun e => match e with | .command _ _ _ => true | _ => false

/-- Commands whose text starts with `kickid` — the shape of every kick
command the loop can send (bg_task.rs line 104). -/
def isKickCmd (e : Effect) : Bool :=
  match e with
  | .command _ c _ => c.data.take 6 == "kickid".data
  | _ => false

/-- The slot-id selection rule actually implemented by the source, as a
function of the whole line: the `slotToken` of the text before the first
quote. -/
def slotTokenOfLine (line : String) : List Char :=
  match splitP (· = '"') (rustTrim line.toList) with
  | p0 :: _ => slotToken p0
  | [] => []

/-- The inserted row of a new evasion catch, as a function of the player,
the matched ban and the server id. -/
def catchInsert (p : Player) (b : Ban) (sid : Int) : InsertBan :=
  ⟨p.name, p.steam_id, p.ip, "account", banReason, b.duration, sysAdminName,
    b.expires_at, "active", sid⟩

/-- Concrete tick environment for the C1 instances: every store lookup
finds no active ban, every operation succeeds. -/
def envC1 : TickEnv := ⟨fun _ => .ok "", fun _ => .ok false, fun _ => true, fun _ => true⟩

/-- Concrete active IP ban on `192.0.2.5` with duration token `60`. -/
def banC1 : Ban :=
  ⟨"Evader", "STEAM_0:1:222", "192.0.2.5", "ip", none, "60", "active", none,
    some 1700000000, some 1⟩

/-- Concrete parsed player connecting from the banned IP under a fresh
identity. -/
def playerC1 : Player := ⟨"3", "Player One", "STEAM_0:1:111", "192.0.2.5"⟩

/-- Concrete tick environment for the C10 witness: the status command
returns the reference line and every store lookup fails. -/
def envC10 : TickEnv :=
  ⟨fun _ => .ok statusLineC6, fun _ => .error "db down", fun _ => true, fun _ => false⟩

/-- Concrete active IP ban matching the reference line's IP. -/
def banC10 : Ban :=
  ⟨"Evader", "STEAM_0:1:222", "192.0.2.5", "ip", none, "60", "active", none, none, some 1⟩

/-- Concrete first server of the C10 witness tick. -/
def srvC10 : ServerT := ⟨1, "198.51.100.1", 27015, some "pw"⟩

/-- Concrete second server of the C10 witness tick, never processed. -/
def srvC10b : ServerT := ⟨2, "198.51.100.2", 27015, some "pw"⟩

/-- An encoded `i32` is four bytes. -/
theorem i32ToLE_length (x : Int) : (i32ToLE x).length = 4 := rfl

/-- Reading an `i32` back from its little-endian encoding round-trips for
every value in the `i32` range, whatever follows in the buffer. -/
theorem readI32_i32ToLE (x : Int) (t : List Nat)
    (h1 : -2147483648 ≤ x) (h2 : x < 2147483648) :
    readI32 (i32ToLE x ++ t) = some x := by
  simp only [i32ToLE, List.cons_append, List.nil_append, readI32, u32ToI32, leToU32]
  split <;> congr 1 <;> omega

/-- Skipping an encoded `i32` leaves exactly the following bytes. -/
theorem drop4_i32ToLE (x : Int) (t : List Nat) : (i32ToLE x ++ t).drop 4 = t := by
  simp only [i32ToLE, List.cons_append, List.nil_append, List.drop_succ_cons, List.drop_zero]

/-- The cursor read fails on fewer than four bytes. -/
theorem readI32_eq_none (buf : List Nat) (h : buf.length < 4) : readI32 buf = none := by
  match buf with
  | [] => rfl
  | [_] => rfl
  | [_, _] => rfl
  | [_, _, _] => rfl
  | _ :: _ :: _ :: _ :: _ => exact absurd h (by simp)

/-- A successful cursor read needs at least four bytes. -/
theorem readI32_length_le {buf : List Nat} {x : Int} (h : readI32 buf = some x) :
    4 ≤ buf.length := by
  match buf with
  | [] => exact absurd h (by simp [readI32])
  | [_] => exact absurd h (by simp [readI32])
  | [_, _] => exact absurd h (by simp [readI32])
  | [_, _, _] => exact absurd h (by simp [readI32])
  | _ :: _ :: _ :: _ :: _ => simp

/-- The `usize` reinterpretation is the identity on non-negative `i32`
values. -/
theorem usizeOfI32_of_nonneg (x : Int) (h1 : 0 ≤ x) (h2 : x < 2147483648) :
    usizeOfI32 x = x.toNat := by
  unfold usizeOfI32; omega

/-- Fuel irrelevance for the response scan loop: any fuel exceeding the
buffer length gives the same result (each iteration consumes at least 12
bytes, so the fuel of `respLoop` is never exhausted). -/
theorem respLoopF_irrel : ∀ (n : Nat) (buf : List Nat), buf.length ≤ n →
    ∀ f g : Nat, buf.length < f → buf.length < g → respLoopF f buf = respLoopF g buf := by
  intro n
  induction n with
  | zero =>
    intro buf hb f g hf hg
    match f, g with
    | f' + 1, g' + 1 =>
      have hb0 : buf = [] := List.eq_nil_of_length_eq_zero (Nat.le_zero.mp hb)
      subst hb0
      rfl
  | succ n ih =>
    intro buf hb f g hf hg
    match f, g with
    | f' + 1, g' + 1 =>
      simp only [respLoopF]
      cases hr : readI32 buf with
      | none => rfl
      | some size =>
        have hblen : 4 ≤ buf.length := readI32_length_le hr
        by_cases h1 : buf.length - 4 < usizeOfI32 size
        · simp [h1]
        · simp only [h1, if_false]
          cases hr2 : readI32 (buf.drop 4) with
          | none => rfl
          | some rid =>
            cases hr3 : readI32 (buf.drop 8) with
            | none => rfl
            | some ty =>
              by_cases h2 : buf.length - 4 + 4 <
                  12 + (if 10 ≤ usizeOfI32 size then usizeOfI32 size - 10 else 0)
              · simp [h2]
              · by_cases h3 : usizeOfI32 size < 8
                · simp [h2, h3]
                · have hdl : (buf.drop (4 + usizeOfI32 size)).length ≤ n := by
                    simp only [List.length_drop] at *
                    omega
                  have hdf : (buf.drop (4 + usizeOfI32 size)).length < f' := by
                    simp only [List.length_drop] at *
                    omega
                  have hdg : (buf.drop (4 + usizeOfI32 size)).length < g' := by
                    simp only [List.length_drop] at *
                    omega
                  simp [h2, h3, ih _ hdl f' g' hdf hdg]

/-- Fuel irrelevance for the auth scan loop: any fuel exceeding the buffer
length gives the same result. -/
theorem authScanF_irrel : ∀ (n : Nat) (reqId : Int) (buf : List Nat), buf.length ≤ n →
    ∀ f g : Nat, buf.length < f → buf.length < g →
    authScanF reqId f buf = authScanF reqId g buf := by
  intro n
  induction n with
  | zero =>
    intro reqId buf hb f g hf hg
    match f, g with
    | f' + 1, g' + 1 =>
      have hb0 : buf = [] := List.eq_nil_of_length_eq_zero (Nat.le_zero.mp hb)
      subst hb0
      rfl
  | succ n ih =>
    intro reqId buf hb f g hf hg
    match f, g with
    | f' + 1, g' + 1 =>
      simp only [authScanF]
      cases hr : readI32 buf with
      | none => rfl
      | some size =>
        have hblen : 4 ≤ buf.length := readI32_length_le hr
        by_cases h1 : buf.length - 4 < usizeOfI32 size
        · simp [h1]
        · simp only [h1, if_false]
          cases hr2 : readI32 (buf.drop 4) with
          | none => rfl
          | some rid =>
            cases hr3 : readI32 (buf.drop 8) with
            | none => rfl
            | some ty =>
              by_cases h3 : usizeOfI32 size < 8
              · simp [h3]
              · have hdl : (buf.drop (4 + usizeOfI32 size)).length ≤ n := by
                  simp only [List.length_drop] at *
                  omega
                have hdf : (buf.drop (4 + usizeOfI32 size)).length < f' := by
                  simp only [List.length_drop] at *
                  omega
                have hdg : (buf.drop (4 + usizeOfI32 size)).length < g' := by
                  simp only [List.length_drop] at *
                  omega
                simp [h3, ih _ _ hdl f' g' hdf hdg]

/-- The wire frame of a packet is `14 + len(body)` bytes long. -/
theorem encodePacket_length (id ty : Int) (body : List Nat) :
    (encodePacket id ty body).length = 14 + body.length := by
  simp [encodePacket, i32ToLE]
  omega

/-- Unfolding of one iteration of the response scan loop on a buffer whose
head is a complete encoded packet: the packet is decoded back exactly and
the cursor advances by exactly the frame's length.  No assumption is made
on the body bytes: in particular embedded nulls travel verbatim. -/
theorem respLoop_encode_cons (id ty : Int) (body tail : List Nat)
    (hid1 : -2147483648 ≤ id) (hid2 : id < 2147483648)
    (hty1 : -2147483648 ≤ ty) (hty2 : ty < 2147483648)
    (hlen : (body.length : Int) + 10 < 2147483648) :
    respLoop (encodePacket id ty body ++ tail)
      = (respLoop tail).map (fun ps => Packet.mk id ty body :: ps) := by
  have hS2 : 4 + 4 + (body.length : Int) + 1 + 1 < 2147483648 := by omega
  have henc : encodePacket id ty body ++ tail
      = i32ToLE (4 + 4 + (body.length : Int) + 1 + 1) ++
        (i32ToLE id ++ (i32ToLE ty ++ (body ++ ([0, 0] ++ tail)))) := by
    simp [encodePacket, List.append_assoc]
  have hS : readI32 (encodePacket id ty body ++ tail)
      = some (4 + 4 + (body.length : Int) + 1 + 1) := by
    rw [henc]; exact readI32_i32ToLE _ _ (by omega) hS2
  have hU : usizeOfI32 (4 + 4 + (body.length : Int) + 1 + 1) = 10 + body.length := by
    unfold usizeOfI32; omega
  have hd4 : (encodePacket id ty body ++ tail).drop 4
      = i32ToLE id ++ (i32ToLE ty ++ (body ++ ([0, 0] ++ tail))) := by
    rw [henc, drop4_i32ToLE]
  have hrid : readI32 ((encodePacket id ty body ++ tail).drop 4) = some id := by
    rw [hd4]; exact readI32_i32ToLE _ _ hid1 hid2
  have hd8 : (encodePacket id ty body ++ tail).drop 8
      = i32ToLE ty ++ (body ++ ([0, 0] ++ tail)) := by
    rw [henc,
      show (8 : Nat) = (i32ToLE (4 + 4 + (body.length : Int) + 1 + 1)).length + 4 by
        rw [i32ToLE_length],
      List.drop_append]
    exact drop4_i32ToLE _ _
  have hty' : readI32 ((encodePacket id ty body ++ tail).drop 8) = some ty := by
    rw [hd8]; exact readI32_i32ToLE _ _ hty1 hty2
  have hd12 : (encodePacket id ty body ++ tail).drop 12 = body ++ ([0, 0] ++ tail) := by
    rw [henc,
      show (12 : Nat) = (i32ToLE (4 + 4 + (body.length : Int) + 1 + 1)).length + 8 by
        rw [i32ToLE_length],
      List.drop_append,
      show (8 : Nat) = (i32ToLE id).length + 4 by rw [i32ToLE_length],
      List.drop_append]
    exact drop4_i32ToLE _ _
  have hlenbuf : (encodePacket id ty body ++ tail).length = 14 + body.length + tail.length := by
    simp [List.length_append, encodePacket_length]
  have hdAdv : (encodePacket id ty body ++ tail).drop (4 + (10 + body.length)) = tail := by
    have h1 : 4 + (10 + body.length) = (encodePacket id ty body).length + 0 := by
      rw [encodePacket_length]; omega
    rw [h1, List.drop_append, List.drop_zero]
  have hBL : (if 10 ≤ 10 + body.length then 10 + body.length - 10 else 0) = body.length := by
    rw [if_pos (Nat.le_add_right 10 body.length)]; omega
  have hA : ¬ ((encodePacket id ty body ++ tail).drop 4).length < 10 + body.length := by
    simp only [List.length_drop, hlenbuf]; omega
  have hB : ¬ ((encodePacket id ty body ++ tail).drop 4).length + 4 < 12 + body.length := by
    simp only [List.length_drop, hlenbuf]; omega
  have hC : ¬ 10 + body.length < 8 := by omega
  have htake : (body ++ ([0, 0] ++ tail)).take body.length = body :=
    List.take_left body ([0, 0] ++ tail)
  calc respLoop (encodePacket id ty body ++ tail)
      = respLoopF (14 + body.length + tail.length + 1) (encodePacket id ty body ++ tail) := by
        simp only [respLoop, hlenbuf]
    _ = (respLoopF (14 + body.length + tail.length) tail).map
          (fun ps => Packet.mk id ty body :: ps) := by
        simp only [respLoopF, hS, hU, hBL, hd12, hdAdv, htake]
        simp [hA, hB, hC, hrid, hty']
        rw [if_neg (by rw [encodePacket_length]; omega),
          if_neg (by rw [encodePacket_length]; omega)]
    _ = (respLoopF (tail.length + 1) tail).map (fun ps => Packet.mk id ty body :: ps) := by
        congr 1
        exact respLoopF_irrel tail.length tail (le_refl _) _ _ (by omega) (by omega)
    _ = (respLoop tail).map (fun ps => Packet.mk id ty body :: ps) := rfl

/-- A buffer of fewer than four bytes ends the scan with no packet and no
error. -/
theorem respLoop_short (buf : List Nat) (h : buf.length < 4) : respLoop buf = some [] := by
  simp only [respLoop, respLoopF, readI32_eq_none buf h]

/-- A buffer whose size field claims more bytes than are present makes the
scan loop stop with "need more input" (no error, no packet). -/
theorem respLoop_incomplete (x : Int) (t : List Nat) (h0 : 0 ≤ x) (h2 : x < 2147483648)
    (h : t.length < x.toNat) : respLoop (i32ToLE x ++ t) = some [] := by
  have hr := readI32_i32ToLE x t (by omega) h2
  have hu := usizeOfI32_of_nonneg x h0 h2
  simp only [respLoop, respLoopF, hr, hu]
  rw [if_pos (by rw [drop4_i32ToLE]; exact h)]

/-- The scan loop decodes any concatenation of valid encoded frames,
followed by bytes on which the scan stops empty, to exactly those
frames. -/
theorem respLoop_frames (frames : List Packet) (tail : List Nat)
    (hv : ∀ f ∈ frames, validPacket f) (htail : respLoop tail = some []) :
    respLoop (encodeFrames frames ++ tail) = some frames := by
  induction frames with
  | nil => simpa [encodeFrames] using htail
  | cons f fs ih =>
    obtain ⟨h1, h2, h3, h4, h5⟩ := hv f (List.mem_cons_self f fs)
    rw [encodeFrames, List.append_assoc,
      respLoop_encode_cons f.reqId f.ty f.body _ h1 h2 h3 h4 h5,
      ih (fun g hg => hv g (List.mem_cons_of_mem f hg))]
    rfl

/-- Unfolding of one iteration of the auth scan loop on a buffer whose head
is a complete encoded packet: a type-2 packet with id `-1` fails, one with
the sent id succeeds, anything else is skipped and scanning continues right
after the frame. -/
theorem authScan_encode_cons (reqId id ty : Int) (body tail : List Nat)
    (hid1 : -2147483648 ≤ id) (hid2 : id < 2147483648)
    (hty1 : -2147483648 ≤ ty) (hty2 : ty < 2147483648)
    (hlen : (body.length : Int) + 10 < 2147483648) :
    authScan reqId (encodePacket id ty body ++ tail)
      = if ty = 2 ∧ id = -1 then .authFailed
        else if ty = 2 ∧ id = reqId then .success
        else authScan reqId tail := by
  have hS2 : 4 + 4 + (body.length : Int) + 1 + 1 < 2147483648 := by omega
  have henc : encodePacket id ty body ++ tail
      = i32ToLE (4 + 4 + (body.length : Int) + 1 + 1) ++
        (i32ToLE id ++ (i32ToLE ty ++ (body ++ ([0, 0] ++ tail)))) := by
    simp [encodePacket, List.append_assoc]
  have hS : readI32 (encodePacket id ty body ++ tail)
      = some (4 + 4 + (body.length : Int) + 1 + 1) := by
    rw [henc]; exact readI32_i32ToLE _ _ (by omega) hS2
  have hU : usizeOfI32 (4 + 4 + (body.length : Int) + 1 + 1) = 10 + body.length := by
    unfold usizeOfI32; omega
  have hd4 : (encodePacket id ty body ++ tail).drop 4
      = i32ToLE id ++ (i32ToLE ty ++ (body ++ ([0, 0] ++ tail))) := by
    rw [henc, drop4_i32ToLE]
  have hrid : readI32 ((encodePacket id ty body ++ tail).drop 4) = some id := by
    rw [hd4]; exact readI32_i32ToLE _ _ hid1 hid2
  have hd8 : (encodePacket id ty body ++ tail).drop 8
      = i32ToLE ty ++ (body ++ ([0, 0] ++ tail)) := by
    rw [henc,
      show (8 : Nat) = (i32ToLE (4 + 4 + (body.length : Int) + 1 + 1)).length + 4 by
        rw [i32ToLE_length],
      List.drop_append]
    exact drop4_i32ToLE _ _
  have hty' : readI32 ((encodePacket id ty body ++ tail).drop 8) = some ty := by
    rw [hd8]; exact readI32_i32ToLE _ _ hty1 hty2
  have hlenbuf : (encodePacket id ty body ++ tail).length = 14 + body.length + tail.length := by
    simp [List.length_append, encodePacket_length]
  have hdAdv : (encodePacket id ty body ++ tail).drop (4 + (10 + body.length)) = tail := by
    have h1 : 4 + (10 + body.length) = (encodePacket id ty body).length + 0 := by
      rw [encodePacket_length]; omega
    rw [h1, List.drop_append, List.drop_zero]
  have hA : ¬ ((encodePacket id ty body ++ tail).drop 4).length < 10 + body.length := by
    simp only [List.length_drop, hlenbuf]; omega
  have hirr : authScanF reqId (14 + body.length + tail.length) tail = authScan reqId tail := by
    unfold authScan
    exact authScanF_irrel tail.length reqId tail (le_refl _) _ _ (by omega) (by omega)
  calc authScan reqId (encodePacket id ty body ++ tail)
      = authScanF reqId (14 + body.length + tail.length + 1)
          (encodePacket id ty body ++ tail) := by
        simp only [authScan, hlenbuf]
    _ = if ty = 2 ∧ id = -1 then .authFailed
        else if ty = 2 ∧ id = reqId then .success
        else authScan reqId tail := by
        simp only [authScanF, hS, hU, hrid, hty', hdAdv, hirr]
        rw [if_neg hA, if_neg (by omega)]
        by_cases h2 : ty = 2
        · by_cases hm1 : id = -1
          · simp [h2, hm1]
          · by_cases hq : id = reqId
            · simp [h2, hm1, hq]
            · simp [h2, hm1, hq]
        · simp [h2]

/-- The auth loop of the source refines the specification's auth decision:
on any sequence of valid frames delivered in one read, the loop's outcome
is exactly the specified scan. -/
theorem authScan_frames (reqId : Int) (frames : List Packet)
    (hv : ∀ f ∈ frames, validPacket f) :
    authScan reqId (encodeFrames frames) = specAuthDecision reqId frames := by
  induction frames with
  | nil => rfl
  | cons f fs ih =>
    obtain ⟨h1, h2, h3, h4, h5⟩ := hv f (List.mem_cons_self f fs)
    rw [encodeFrames, authScan_encode_cons reqId f.reqId f.ty f.body _ h1 h2 h3 h4 h5,
      specAuthDecision, ih (fun g hg => hv g (List.mem_cons_of_mem f hg))]

/-- The combined `sm_ban` command is not a kick command. -/
theorem isKickCmd_smBan (addr u d : String) (ok : Bool) :
    isKickCmd (.command addr (smBanCmd u d) ok) = false := by
  simp [isKickCmd, smBanCmd, String.data_append]

/-- The `kickid` command is a kick command. -/
theorem isKickCmd_kick (addr u : String) (ok : Bool) :
    isKickCmd (.command addr (kickCmd u) ok) = true := by
  simp [isKickCmd, kickCmd, String.data_append]

/-- A player whose IP matches no snapshot ban produces no effect and no
error. -/
theorem evalPlayerBans_nomatch (env : TickEnv) (addr : String) (sid : Int) (p : Player)
    (bans : List Ban) (h : ∀ x ∈ bans, x.ip ≠ p.ip) :
    evalPlayerBans env addr sid p bans = ([], none) := by
  induction bans with
  | nil => rfl
  | cons b bs ih =>
    rw [evalPlayerBans, if_neg (h b (List.mem_cons_self b bs))]
    exact ih (fun x hx => h x (List.mem_cons_of_mem b hx))

/-- The Evaluate step on a new catch (exactly one snapshot ban matches the
player's ip, and the store has no active ban for the identity): exactly one
insert, inheriting the matched ban's duration and `expires_at`, attributed
to the system admin name with the fixed reason, followed by exactly one
`sm_ban` command — and nothing else. -/
theorem evalPlayerBans_newCatch (env : TickEnv) (addr : String) (sid : Int) (p : Player)
    (pre post : List Ban) (b : Ban) (hb : b.ip = p.ip)
    (hpre : ∀ x ∈ pre, x.ip ≠ p.ip) (hpost : ∀ x ∈ post, x.ip ≠ p.ip)
    (hlook : env.lookupActive p.steam_id = .ok false) :
    evalPlayerBans env addr sid p (pre ++ b :: post)
      = ([.insert ⟨p.name, p.steam_id, p.ip, "account", banReason, b.duration,
            sysAdminName, b.expires_at, "active", sid⟩
            (env.insertOk ⟨p.name, p.steam_id, p.ip, "account", banReason, b.duration,
              sysAdminName, b.expires_at, "active", sid⟩),
          .command addr (smBanCmd p.userid b.duration)
            (env.cmdOk (smBanCmd p.userid b.duration))], none) := by
  induction pre with
  | nil =>
    rw [List.nil_append, evalPlayerBans, if_pos hb, hlook]
    rw [evalPlayerBans_nomatch env addr sid p post hpost]
  | cons x xs ih =>
    rw [List.cons_append, evalPlayerBans, if_neg (hpre x (List.mem_cons_self x xs))]
    exact ih (fun y hy => hpre y (List.mem_cons_of_mem x hy))

/-- The outcomes of the fire-and-forget insert and kick/ban commands are
discarded by the Evaluate step: two environments that agree on the store
lookups produce the same effects up to success flags and the same error. -/
theorem evalPlayerBans_flag (env env2 : TickEnv) (hl : env2.lookupActive = env.lookupActive)
    (addr : String) (sid : Int) (p : Player) (bans : List Ban) :
    (evalPlayerBans env2 addr sid p bans).1.map stripOk
      = (evalPlayerBans env addr sid p bans).1.map stripOk
    ∧ (evalPlayerBans env2 addr sid p bans).2 = (evalPlayerBans env addr sid p bans).2 := by
  induction bans with
  | nil => exact ⟨rfl, rfl⟩
  | cons b bs ih =>
    simp only [evalPlayerBans, hl]
    by_cases hip : b.ip = p.ip
    · simp only [hip, if_pos]
      cases hq : env.lookupActive p.steam_id with
      | error e => exact ⟨rfl, rfl⟩
      | ok bb =>
        cases bb with
        | true =>
          simp only [List.map_cons, stripOk]
          exact ⟨by rw [ih.1], ih.2⟩
        | false =>
          simp only [List.map_cons, stripOk]
          exact ⟨by rw [ih.1], ih.2⟩
    · simp only [if_neg hip]
      exact ih

/-- Flag independence lifted to the player iteration. -/
theorem runPlayers_flag (env env2 : TickEnv) (hl : env2.lookupActive = env.lookupActive)
    (addr : String) (sid : Int) (ipBans : List Ban) (ps : List Player) :
    (runPlayers env2 addr sid ipBans ps).1.map stripOk
      = (runPlayers env addr sid ipBans ps).1.map stripOk
    ∧ (runPlayers env2 addr sid ipBans ps).2 = (runPlayers env addr sid ipBans ps).2 := by
  induction ps with
  | nil => exact ⟨rfl, rfl⟩
  | cons p rest ih =>
    obtain ⟨h1, h2⟩ := evalPlayerBans_flag env env2 hl addr sid p ipBans
    simp only [runPlayers, h2]
    cases hq : (evalPlayerBans env addr sid p ipBans).2 with
    | some e => exact ⟨h1, rfl⟩
    | none =>
      constructor
      · simp only [List.map_append, h1, ih.1]
      · exact ih.2

/-- Flag independence lifted to one server. -/
theorem runServer_flag (env env2 : TickEnv) (hs : env2.status = env.status)
    (hl : env2.lookupActive = env.lookupActive) (ipBans : List Ban) (s : ServerT) :
    (runServer env2 ipBans s).1.map stripOk = (runServer env ipBans s).1.map stripOk
    ∧ (runServer env2 ipBans s).2 = (runServer env ipBans s).2 := by
  simp only [runServer, hs]
  cases env.status s.id with
  | error e => exact ⟨rfl, rfl⟩
  | ok output => exact runPlayers_flag env env2 hl _ _ ipBans _

/-- Flag independence lifted to the whole tick. -/
theorem runTick_flag (env env2 : TickEnv) (hs : env2.status = env.status)
    (hl : env2.lookupActive = env.lookupActive) (ipBans : List Ban) (ss : List ServerT) :
    (runTick env2 ipBans ss).1.map stripOk = (runTick env ipBans ss).1.map stripOk
    ∧ (runTick env2 ipBans ss).2 = (runTick env ipBans ss).2 := by
  induction ss with
  | nil => exact ⟨rfl, rfl⟩
  | cons s rest ih =>
    obtain ⟨h1, h2⟩ := runServer_flag env env2 hs hl ipBans s
    simp only [runTick, h2]
    cases hq : (runServer env ipBans s).2 with
    | some e => exact ⟨h1, rfl⟩
    | none =>
      constructor
      · simp only [List.map_append, h1, ih.1]
      · exact ih.2

/-- A store-lookup error inside one server's evaluation propagates out of
the server iteration: the tick ends with that error, the effect log stops
at the failing server, and the following servers are never processed. -/
theorem runTick_abort (env : TickEnv) (ipBans : List Ban) (pre post : List ServerT)
    (s : ServerT) (e : String)
    (hpre : ∀ x ∈ pre, (runServer env ipBans x).2 = none)
    (herr : (runServer env ipBans s).2 = some e) :
    runTick env ipBans (pre ++ s :: post)
      = ((pre.map (fun x => (runServer env ipBans x).1)).foldr (· ++ ·) []
          ++ (runServer env ipBans s).1, some e) := by
  induction pre with
  | nil =>
    simp only [List.nil_append, runTick, herr, List.map_nil, List.foldr_nil]
  | cons x xs ih =>
    have hx := hpre x (List.mem_cons_self x xs)
    have ih2 := ih (fun y hy => hpre y (List.mem_cons_of_mem x hy))
    simp only [List.cons_append, runTick, hx, List.append_eq, ih2,
      List.map_cons, List.foldr_cons, List.append_assoc]

/-- A strict prefix of one encoded frame (fewer bytes than the full frame)
makes the scan loop stop with "need more input": no packet, no error. -/
theorem respLoop_truncFrame (id ty : Int) (body : List Nat) (k : Nat)
    (hlen : (body.length : Int) + 10 < 2147483648) (hk : k < 14 + body.length) :
    respLoop ((encodePacket id ty body).take k) = some [] := by
  by_cases h4 : k < 4
  · apply respLoop_short
    rw [List.length_take]
    omega
  · obtain ⟨m, rfl⟩ : ∃ m, k = 4 + m := ⟨k - 4, by omega⟩
    have henc : encodePacket id ty body
        = i32ToLE (4 + 4 + (body.length : Int) + 1 + 1) ++
          (i32ToLE id ++ i32ToLE ty ++ body ++ [0, 0]) := by
      simp [encodePacket, List.append_assoc]
    have htk : (encodePacket id ty body).take (4 + m)
        = i32ToLE (4 + 4 + (body.length : Int) + 1 + 1) ++
          (i32ToLE id ++ i32ToLE ty ++ body ++ [0, 0]).take m := by
      rw [henc, show (4 : Nat) + m
        = (i32ToLE (4 + 4 + (body.length : Int) + 1 + 1)).length + m by
          rw [i32ToLE_length], List.take_append]
    rw [htk]
    apply respLoop_incomplete _ _ (by omega) (by omega)
    rw [List.length_take]
    have hrest : (i32ToLE id ++ i32ToLE ty ++ body ++ [0, 0]).length = 10 + body.length := by
      simp [List.length_append, i32ToLE_length]
      omega
    rw [hrest]
    omega

/-- Whenever a line yields a record, its `slot_id` is given by the
after-`#` selection rule (`slotTokenOfLine`), and a selected token that is
literally `#` makes the parser skip the line. -/
theorem parseStatusLine_userid (line : String) (r : Player)
    (h : parseStatusLine line = some r) :
    r.userid = String.mk (slotTokenOfLine line) ∧ slotTokenOfLine line ≠ ['#'] := by
  unfold parseStatusLine at h
  dsimp only at h
  split at h
  · exact absurd h (by simp)
  · split at h
    case _ p0 p1 p2 rest heq =>
      split at h
      · exact absurd h (by simp)
      · split at h
        · exact absurd h (by simp)
        · split at h
          · exact absurd h (by simp)
          · rename_i hhead hhash hfields hguard
            injection h with h2
            subst h2
            unfold slotTokenOfLine
            rw [heq]
            exact ⟨rfl, hhash⟩
    case _ => exact absurd h (by simp)

/-- Every line whose parsed identity is the literal `BOT` is skipped: no
produced record carries steam id `"BOT"`. -/
theorem parseStatusLine_notBOT (line : String) (r : Player)
    (h : parseStatusLine line = some r) : r.steam_id ≠ "BOT" := by
  unfold parseStatusLine at h
  dsimp only at h
  split at h
  · exact absurd h (by simp)
  · split at h
    case _ p0 p1 p2 rest heq =>
      split at h
      · exact absurd h (by simp)
      · split at h
        · exact absurd h (by simp)
        · split at h
          · exact absurd h (by simp)
          · rename_i hhead hhash hfields hguard
            injection h with h2
            subst h2
            intro hcontra
            apply hguard
            right
            have h3 := congrArg String.data hcontra
            simpa using h3
    case _ => exact absurd h (by simp)

/-- C1, counterexample: on a new catch (one active IP ban matching the
player's IP, identity not actively banned) the source emits exactly ONE
command — the combined `sm_ban` — and no `kickid` command, whereas the
claim asserts one kick command AND one ban command are sent. -/
theorem c1_counterexample :
    evalPlayerBans envC1 "203.0.113.9:27015" 1 playerC1 [banC1]
      = ([.insert ⟨"Player One", "STEAM_0:1:111", "192.0.2.5", "account", banReason, "60",
            sysAdminName, some 1700000000, "active", 1⟩ true,
          .command "203.0.113.9:27015" (smBanCmd "3" "60") true], none)
    ∧ commandCount (evalPlayerBans envC1 "203.0.113.9:27015" 1 playerC1 [banC1]).1 = 1
    ∧ (evalPlayerBans envC1 "203.0.113.9:27015" 1 playerC1 [banC1]).1.countP isKickCmd = 0 := by
  decide

/-- C1, amended: in the Evaluate step, for every parsed player whose IP
equals the IP of exactly one active IP-kind ban of the snapshot and whose
identity has no active ban in the store, exactly one new account-kind ban
record is inserted, inheriting the matched IP-ban's duration token and
`expires_at`, attributed to the system admin name with the fixed reason
string, and then exactly one command is sent to that server: the combined
kick-and-ban `sm_ban` command (no separate kick command). -/
theorem c1_theorem (env : TickEnv) (addr : String) (sid : Int) (p : Player)
    (pre post : List Ban) (b : Ban) (hb : b.ip = p.ip)
    (hpre : ∀ x ∈ pre, x.ip ≠ p.ip) (hpost : ∀ x ∈ post, x.ip ≠ p.ip)
    (hlook : env.lookupActive p.steam_id = .ok false) :
    evalPlayerBans env addr sid p (pre ++ b :: post)
      = ([.insert (catchInsert p b sid) (env.insertOk (catchInsert p b sid)),
          .command addr (smBanCmd p.userid b.duration)
            (env.cmdOk (smBanCmd p.userid b.duration))], none)
    ∧ insertCount (evalPlayerBans env addr sid p (pre ++ b :: post)).1 = 1
    ∧ commandCount (evalPlayerBans env addr sid p (pre ++ b :: post)).1 = 1
    ∧ (evalPlayerBans env addr sid p (pre ++ b :: post)).1.countP isKickCmd = 0 := by
  have h := evalPlayerBans_newCatch env addr sid p pre post b hb hpre hpost hlook
  refine ⟨h, ?_, ?_, ?_⟩ <;> rw [h] <;>
    simp [insertCount, commandCount, List.countP_cons, List.countP_nil, isKickCmd,
      smBanCmd, String.data_append]

/-- C1, witness for the amended theorem at a concrete input. -/
theorem c1_witness :
    evalPlayerBans envC1 "203.0.113.9:27015" 1 playerC1 ([] ++ banC1 :: [])
      = ([.insert (catchInsert playerC1 banC1 1) (envC1.insertOk (catchInsert playerC1 banC1 1)),
          .command "203.0.113.9:27015" (smBanCmd "3" "60")
            (envC1.cmdOk (smBanCmd "3" "60"))], none) :=
  (c1_theorem envC1 "203.0.113.9:27015" 1 playerC1 [] [] banC1 rfl
    (by intro x hx; cases hx) (by intro x hx; cases hx) rfl).1

/-- C2 (confirmed): the frame layout is little-endian `size`, `id`, `type`,
`body`, two nulls with `size = 8 + len(body) + 2` (the size field does not
count itself), and the response scanner decodes the encoding of any valid
null-free frame back to exactly `(id, type, body)`, consuming exactly the
frame's length (any following bytes are scanned as if the frame were
absent). -/
theorem c2_theorem (id ty : Int) (body tail : List Nat)
    (hid1 : -2147483648 ≤ id) (hid2 : id < 2147483648)
    (hty1 : -2147483648 ≤ ty) (hty2 : ty < 2147483648)
    (hlen : (body.length : Int) + 10 < 2147483648)
    (hbytes : ∀ b ∈ body, b < 256) (hnull : ∀ b ∈ body, b ≠ 0) :
    encodePacket id ty body
      = i32ToLE (8 + (body.length : Int) + 2) ++ i32ToLE id ++ i32ToLE ty ++ body ++ [0, 0]
    ∧ respLoop (encodePacket id ty body ++ tail)
      = (respLoop tail).map (fun ps => Packet.mk id ty body :: ps)
    ∧ respLoop (encodePacket id ty body) = some [Packet.mk id ty body] := by
  refine ⟨?_, respLoop_encode_cons id ty body tail hid1 hid2 hty1 hty2 hlen, ?_⟩
  · rw [encodePacket, show 4 + 4 + (body.length : Int) + 1 + 1 = 8 + (body.length : Int) + 2 by
      ring]
  · have h := respLoop_encode_cons id ty body [] hid1 hid2 hty1 hty2 hlen
    rw [List.append_nil] at h
    rw [h]
    rfl

/-- C2, witness at a concrete frame. -/
theorem c2_witness :
    encodePacket 7 0 [65, 66]
      = i32ToLE (8 + ((2 : Nat) : Int) + 2) ++ i32ToLE 7 ++ i32ToLE 0 ++ [65, 66] ++ [0, 0]
    ∧ respLoop (encodePacket 7 0 [65, 66] ++ [9, 9, 9])
      = (respLoop [9, 9, 9]).map (fun ps => Packet.mk 7 0 [65, 66] :: ps)
    ∧ respLoop (encodePacket 7 0 [65, 66]) = some [Packet.mk 7 0 [65, 66]] :=
  c2_theorem 7 0 [65, 66] [9, 9, 9] (by decide) (by decide) (by decide) (by decide)
    (by decide) (by decide) (by decide)

/-- C8, counterexample: the source never validates the body — encoding a
body containing an embedded null byte succeeds and produces a well-formed
wire frame (which even decodes back, null included), whereas the claim
asserts encoding fails with `EncodeError`. -/
theorem c8_counterexample :
    encodePacket 1 3 [0] = [11, 0, 0, 0, 1, 0, 0, 0, 3, 0, 0, 0, 0, 0, 0]
    ∧ respLoop (encodePacket 1 3 [0]) = some [⟨1, 3, [0]⟩] := by
  decide

/-- C8, amended: encoding never fails; bodies with embedded null bytes are
written verbatim into the wire frame, and the response scanner returns
them unchanged (the body length comes from the size field, not from null
scanning). -/
theorem c8_theorem (id ty : Int) (body tail : List Nat)
    (hid1 : -2147483648 ≤ id) (hid2 : id < 2147483648)
    (hty1 : -2147483648 ≤ ty) (hty2 : ty < 2147483648)
    (hlen : (body.length : Int) + 10 < 2147483648)
    (hbytes : ∀ b ∈ body, b < 256) (hnull : 0 ∈ body) :
    respLoop (encodePacket id ty body ++ tail)
      = (respLoop tail).map (fun ps => Packet.mk id ty body :: ps) :=
  respLoop_encode_cons id ty body tail hid1 hid2 hty1 hty2 hlen

/-- C8, witness at a frame whose body is a single null byte. -/
theorem c8_witness :
    respLoop (encodePacket 5 0 [0] ++ []) = (respLoop []).map (fun ps => Packet.mk 5 0 [0] :: ps) :=
  c8_theorem 5 0 [0] [] (by decide) (by decide) (by decide) (by decide) (by decide)
    (by decide) (by decide)

/-- C9 (code bug): a read delivering the four bytes `00 00 00 00` (size
field `0`) makes the response scan loop panic — `read_i32(...).unwrap()`
on an exhausted cursor — instead of returning a decode error; and a read
carrying a complete 12-byte packet whose size field is `0` drives the auth
scan loop into the overflow-checked `size - 8` underflow.  The spec's
`DecodeError` / `MalformedFrame` path does not exist in the source. -/
theorem c9_theorem :
    respLoop [0, 0, 0, 0] = none
    ∧ authScan 999 [0, 0, 0, 0, 0, 0, 0, 0, 0, 0, 0, 0] = .panicked := by
  decide

/-- C3, counterexample: the same valid frame decodes in one read, but
delivered split across two reads the decoder neither retains the first
read's tail bytes nor ever returns the frame — the second read's bytes are
misparsed from position zero and the loop panics.  The claim's
"retains any unconsumed tail bytes for the next read" does not hold. -/
theorem c3_counterexample :
    respLoop (encodePacket 5 0 [65]) = some [⟨5, 0, [65]⟩]
    ∧ respReads [(encodePacket 5 0 [65]).take 7, (encodePacket 5 0 [65]).drop 7] = none := by
  decide

/-- C3, amended: within one read, the scan loop handles any number of
concatenated complete frames and stops with "need more input" (no error)
at a trailing partial frame, returning exactly the complete frames; the
partial frame's bytes are discarded, not retained — each read is parsed
from scratch, so a frame split across reads is never reassembled. -/
theorem c3_theorem (frames : List Packet) (id ty : Int) (body : List Nat) (k : Nat)
    (hv : ∀ f ∈ frames, validPacket f)
    (hlen : (body.length : Int) + 10 < 2147483648) (hk : k < 14 + body.length) :
    respLoop (encodeFrames frames ++ (encodePacket id ty body).take k) = some frames :=
  respLoop_frames frames ((encodePacket id ty body).take k) hv
    (respLoop_truncFrame id ty body k hlen hk)

/-- C3, witness: one complete frame followed by the first five bytes of a
second frame yields exactly the first frame and no error. -/
theorem c3_witness :
    respLoop (encodeFrames [⟨1, 0, [65]⟩] ++ (encodePacket 2 0 [66]).take 5)
      = some [⟨1, 0, [65]⟩] :=
  c3_theorem [⟨1, 0, [65]⟩] 2 0 [66] 5 (by decide) (by decide) (by decide)

/-- C4, counterexample: a frame of type `5` (neither `ResponseValue` nor
anything else meaningful) with request id `7` (≠ the sent id `42`) still
has its body accumulated into the response, whereas the claim asserts
bodies of frames with a different type or id are not included. -/
theorem c4_counterexample :
    responseOf (encodeFrames [⟨7, 5, [88]⟩]) = some [88]
    ∧ specResponse 42 [⟨7, 5, [88]⟩] = [] := by
  decide

/-- C4, amended: the response loop performs no filtering at all — for any
sequence of valid frames received after the command is written, the
returned text is the concatenation, in arrival order, of the bodies of ALL
frames, regardless of their type and request id. -/
theorem c4_theorem (frames : List Packet) (hv : ∀ f ∈ frames, validPacket f) :
    responseOf (encodeFrames frames)
      = some ((frames.map Packet.body).foldr (· ++ ·) []) := by
  have h := respLoop_frames frames [] hv rfl
  rw [List.append_nil] at h
  rw [responseOf, h]
  rfl

/-- C4, witness: two frames, one matching the sent id and type, one not;
both bodies appear in the response. -/
theorem c4_witness :
    responseOf (encodeFrames [⟨42, 0, [88]⟩, ⟨7, 5, [89]⟩]) = some [88, 89] := by
  have h := c4_theorem [⟨42, 0, [88]⟩, ⟨7, 5, [89]⟩] (by decide)
  rw [h]
  decide

/-- C5, counterexample: on the reference status line the text before the
first quote is `# 3 1`; the claim's rule (last whitespace token) selects
`1`, but the parser selects `3` (the token after the first `#` token). -/
theorem c5_counterexample :
    (parseStatusLine statusLineC6).map Player.userid = some "3"
    ∧ specSlotIdOfLine statusLineC6 = some "1" := by
  decide

/-- C5, amended: for every status line that yields a record, the parser
takes as slot id the token following the first `#` token (with a
successor) in the whitespace split of the text before the first quote,
falling back to the last token when no `#` token has a successor; it skips
the line when the selected token is literally `#`. -/
theorem c5_theorem (line : String) (r : Player) (h : parseStatusLine line = some r) :
    r.userid = String.mk (slotTokenOfLine line) ∧ slotTokenOfLine line ≠ ['#'] :=
  parseStatusLine_userid line r h

/-- C5, witness at the reference line. -/
theorem c5_witness :
    (⟨"3", "Player One", "STEAM_0:1:111", "192.0.2.5"⟩ : Player).userid
        = String.mk (slotTokenOfLine statusLineC6)
      ∧ slotTokenOfLine statusLineC6 ≠ ['#'] :=
  c5_theorem statusLineC6 ⟨"3", "Player One", "STEAM_0:1:111", "192.0.2.5"⟩ (by decide)

/-- C6 (confirmed): the reference line parses to exactly one record with
slot id `3`, display name `Player One`, identity `STEAM_0:1:111` and ip
`192.0.2.5`; and no line whose parsed identity is `BOT` ever produces a
record. -/
theorem c6_theorem :
    parseStatus statusLineC6 = [⟨"3", "Player One", "STEAM_0:1:111", "192.0.2.5"⟩]
    ∧ ∀ (line : String) (r : Player), parseStatusLine line = some r → r.steam_id ≠ "BOT" :=
  ⟨by decide, parseStatusLine_notBOT⟩

/-- C6, witness: the inner implication applied at a concrete BOT-free
line. -/
theorem c6_witness : ("STEAM_0:1:111" : String) ≠ "BOT" :=
  c6_theorem.2 statusLineC6 ⟨"3", "Player One", "STEAM_0:1:111", "192.0.2.5"⟩ (by decide)

/-- C7 (confirmed): the auth handshake loop refines the specified
decision: scanning the arriving frames in order, a type-2 frame with
request id `-1` fails the handshake regardless of its body, a type-2 frame
with the sent request id succeeds, and every frame of another type (or
another id) is discarded without affecting the outcome. -/
theorem c7_theorem (reqId : Int) (frames : List Packet)
    (hv : ∀ f ∈ frames, validPacket f) :
    authScan reqId (encodeFrames frames) = specAuthDecision reqId frames :=
  authScan_frames reqId frames hv

/-- C7, witness: a response-value frame is discarded, then a type-2 frame
with id `-1` (non-empty body) fails the handshake. -/
theorem c7_witness :
    authScan 999 (encodeFrames [⟨0, 0, [64]⟩, ⟨-1, 2, [77]⟩, ⟨999, 2, []⟩])
      = .authFailed := by
  have h := c7_theorem 999 [⟨0, 0, [64]⟩, ⟨-1, 2, [77]⟩, ⟨999, 2, []⟩] (by decide)
  rw [h]
  decide

/-- C10 (confirmed): a store-lookup error inside one server's evaluation
propagates out of the server iteration and aborts the remainder of the
tick — the effect log is exactly that of the preceding servers plus the
failing server's partial log, and the servers after it are never processed
— whereas the outcomes of the fire-and-forget insert and kick/ban
commands (`insertOk` / `cmdOk`) influence neither the effects performed
(up to their recorded success flags) nor the error. -/
theorem c10_theorem (env env2 : TickEnv) (ipBans : List Ban) (pre post : List ServerT)
    (s : ServerT) (e : String)
    (hpre : ∀ x ∈ pre, (runServer env ipBans x).2 = none)
    (herr : (runServer env ipBans s).2 = some e)
    (hs : env2.status = env.status) (hl : env2.lookupActive = env.lookupActive) :
    runTick env ipBans (pre ++ s :: post)
      = ((pre.map (fun x => (runServer env ipBans x).1)).foldr (· ++ ·) []
          ++ (runServer env ipBans s).1, some e)
    ∧ (runTick env2 ipBans (pre ++ s :: post)).1.map stripOk
        = (runTick env ipBans (pre ++ s :: post)).1.map stripOk
    ∧ (runTick env2 ipBans (pre ++ s :: post)).2 = some e := by
  have h1 := runTick_abort env ipBans pre post s e hpre herr
  have h2 := runTick_flag env env2 hs hl ipBans (pre ++ s :: post)
  exact ⟨h1, h2.1, by rw [h2.2, h1]⟩

/-- C10, witness: the first server's player hits a failing lookup; the
second server is never processed and the tick ends with the error. -/
theorem c10_witness :
    runTick envC10 [banC10] ([] ++ srvC10 :: [srvC10b])
      = ((([] : List ServerT).map (fun x => (runServer envC10 [banC10] x).1)).foldr (· ++ ·) []
          ++ (runServer envC10 [banC10] srvC10).1, some "db down") :=
  (c10_theorem envC10 envC10 [banC10] [] [srvC10b] srvC10 "db down"
    (by intro x hx; cases hx) (by decide) rfl rfl).1
